import Mathlib

/-! Events.c / main.c of the leap-motion prototype

A shallow embedding of the interrupt handlers of `Sources/Events.c` and of the
control loop of `Sources/main.c`.  The `uint8_t` statics are natural numbers
with an explicit `% 256` at every increment; the event ring buffer, whose
implementation is not part of the two source files, is a list.
-/

namespace LeapMotion

/-- Event codes passed to `event_buff_insert_event` in `Events.c` and `main.c`. -/
inductive EVENT where
  | NEW_MESSAGE_FROM_TERMINAL
  | NEW_MESSAGE_FROM_BROKER
  | SINGLE_FINGER_SNAPPING
  | DOUBLE_FINGER_SNAPPING
  | ORIENTATION_CHANG_TO_VER
  | ORIENTATION_CHANG_TO_LAT
  | ORIENTATION_CHANG_TO_HOR
  deriving DecidableEq, Repr

open EVENT

/-- Window length in timer ticks: `#define TIMEOUT 10`. -/
def TIMEOUT : Nat := 10

/-- Orientation threshold: `#define GRAVITY_THRESHOLD 2000`. -/
def GRAVITY_THRESHOLD : Int := 2000

/-- Enumerator `HORIZONTAL` of `enum ORIENTATION { HORIZONTAL, LATERAL, VERTICAL }`. -/
def HORIZONTAL : Int := 0

/-- Enumerator `LATERAL` of `enum ORIENTATION`. -/
def LATERAL : Int := 1

/-- Enumerator `VERTICAL` of `enum ORIENTATION`. -/
def VERTICAL : Int := 2

/-- Transmit side of one serial channel: the `static uint8_t curr_idx` of the
`OnTxChar` handler, the NUL-terminated buffer it walks (`console_info.buffer`,
`comm_info.message_out`), the `DONE` status flag, and the characters handed to
`UARTx_SendChar`. -/
structure TxChannel where
  curr_idx : Nat
  buffer : List Nat
  done : Bool
  sent : List Nat
  deriving DecidableEq, Repr

/-- Program state: the two `uint8_t` statics of `Events.c`, the event-generation
flag of the timer component (`TI1_EnableEvent` / `TI1_DisableEvent`), the event
buffer, the log of `event_handler` invocations, and the two transmit channels. -/
structure State where
  timeout_counter : Nat
  snapping_counter : Nat
  TI1_EnEvent : Bool
  event_buff : List EVENT
  handled : List EVENT
  console : TxChannel
  comm : TxChannel
  deriving DecidableEq, Repr

/-- Modelled from the spec: `event_buff_insert_event` of the event ring buffer
(module `event_buff`, not among the source files).  The spec describes a FIFO of
event codes that keeps insertion order; insertion into a queue that is not full
appends at the tail. -/
def event_buff_insert_event (e : EVENT) (s : State) : State :=
  { s with event_buff := s.event_buff ++ [e] }

/-- Modelled from the spec: `event_buff_is_empty` of the event ring buffer. -/
def event_buff_is_empty (s : State) : Bool :=
  s.event_buff.isEmpty

/-- Modelled from the spec: `event_buff_consume_event` removes and returns the
oldest event of the FIFO; the caller checks `event_buff_is_empty` first. -/
def event_buff_consume_event (s : State) : Option (EVENT × State) :=
  match s.event_buff with
  | [] => none
  | e :: rest => some (e, { s with event_buff := rest })

/-- Modelled from the spec: `event_handler` is the external callback invoked
once per dispatched event; the model records each invocation. -/
def event_handler (e : EVENT) (s : State) : State :=
  { s with handled := s.handled ++ [e] }

/-- `TI1_EnableEvent()`. -/
def TI1_EnableEvent (s : State) : State :=
  { s with TI1_EnEvent := true }

/-- `TI1_DisableEvent()`. -/
def TI1_DisableEvent (s : State) : State :=
  { s with TI1_EnEvent := false }

/-- `KY_038_OnInterrupt` (Events.c 257-278).  The critical section, the debounce
wait and the clearing of the pin flag do not touch the modelled state. -/
def KY_038_OnInterrupt (s : State) : State :=
  let s1 :=
    if s.snapping_counter = 0 then
      TI1_EnableEvent { s with timeout_counter := 0 }
    else s
  { s1 with snapping_counter := (s1.snapping_counter + 1) % 256 }

/-- `TI1_OnInterrupt` (Events.c 294-313). -/
def TI1_OnInterrupt (s : State) : State :=
  let s1 := { s with timeout_counter := (s.timeout_counter + 1) % 256 }
  if s1.timeout_counter = TIMEOUT then
    let s2 :=
      if s1.snapping_counter = 2 then
        event_buff_insert_event SINGLE_FINGER_SNAPPING s1
      else if s1.snapping_counter = 4 then
        event_buff_insert_event DOUBLE_FINGER_SNAPPING s1
      else s1
    TI1_DisableEvent { s2 with snapping_counter := 0 }
  else s1

/-- `UART0_OnError`: empty body. -/
def UART0_OnError (s : State) : State := s

/-- `UART2_OnError`: empty body. -/
def UART2_OnError (s : State) : State := s

/-- Body shared by `UART0_OnTxChar` and `UART2_OnTxChar` on their own channel:
`curr_char = buffer[curr_idx++]`, then either send it or rewind and mark the
channel `DONE`.  A read past the stored characters yields NUL. -/
def OnTxChar (c : TxChannel) : TxChannel :=
  let curr_char := c.buffer.getD c.curr_idx 0
  let c1 := { c with curr_idx := (c.curr_idx + 1) % 256 }
  if curr_char ≠ 0 then
    { c1 with sent := c1.sent ++ [curr_char] }
  else
    { c1 with curr_idx := 0, done := true }

/-- `UART0_OnTxChar` (Events.c 153-168). -/
def UART0_OnTxChar (s : State) : State :=
  { s with console := OnTxChar s.console }

/-- `UART2_OnTxChar` (Events.c 229-243). -/
def UART2_OnTxChar (s : State) : State :=
  { s with comm := OnTxChar s.comm }

/-- `UART0_OnRxChar` (Events.c 123-136).  `console_write` (module `console`, not
among the source files) echoes the last received character and acts on the
console channel only; `complete` is the value of `UART0_HasACompleteMessage()`. -/
def UART0_OnRxChar (console_write : TxChannel → Nat → TxChannel) (lastChar : Nat)
    (complete : Bool) (s : State) : State :=
  let s1 := { s with console := console_write s.console lastChar }
  if complete then event_buff_insert_event NEW_MESSAGE_FROM_TERMINAL s1 else s1

/-- `UART2_OnRxChar` (Events.c 208-212); `complete` is the value of
`UART2_HasACompleteMessage()`. -/
def UART2_OnRxChar (complete : Bool) (s : State) : State :=
  if complete then event_buff_insert_event NEW_MESSAGE_FROM_BROKER s else s

/-- C library `abs` on an `int` reading. -/
def abs (x : Int) : Int := if x < 0 then -x else x

/-- Orientation check of one pass through the `for(;;)` body of `main`
(main.c 82-101).  `last_orientation` is declared inside the loop body and is
initialised to `-1` on every pass; whatever type the compiler gives the enum, the
converted value differs from the three enumerators. -/
def orientation_check (x y z : Int) (s : State) : State :=
  let last_orientation : Int := -1
  if abs x ≥ GRAVITY_THRESHOLD ∧ last_orientation ≠ VERTICAL then
    event_buff_insert_event ORIENTATION_CHANG_TO_VER s
  else if abs y ≥ GRAVITY_THRESHOLD ∧ last_orientation ≠ LATERAL then
    event_buff_insert_event ORIENTATION_CHANG_TO_LAT s
  else if abs z ≥ GRAVITY_THRESHOLD ∧ last_orientation ≠ HORIZONTAL then
    event_buff_insert_event ORIENTATION_CHANG_TO_HOR s
  else s

/-- Dispatch step of the loop body (main.c 103-104):
`if(!event_buff_is_empty()) event_handler(event_buff_consume_event());`. -/
def dispatch (s : State) : State :=
  if !event_buff_is_empty s then
    match event_buff_consume_event s with
    | some (e, s1) => event_handler e s1
    | none => s
  else s

/-- One pass through the `for(;;)` body of `main` (main.c 80-105) with the three
accelerometer readings of that pass. -/
def main_loop_body (r : Int × Int × Int) (s : State) : State :=
  dispatch (orientation_check r.1 r.2.1 r.2.2 s)

/-- Consecutive passes through the loop body, one per triple of readings. -/
def main_loop (rs : List (Int × Int × Int)) (s : State) : State :=
  rs.foldl (fun acc r => main_loop_body r acc) s

/-- Interrupt sources of the snap state machine. -/
inductive Input where
  | edge
  | tick
  deriving DecidableEq, Repr

/-- One interrupt.  An edge always runs `KY_038_OnInterrupt`; the periodic timer
runs `TI1_OnInterrupt` only while its events are enabled (Events.c 286-288). -/
def step (s : State) : Input → State
  | Input.edge => KY_038_OnInterrupt s
  | Input.tick => if s.TI1_EnEvent then TI1_OnInterrupt s else s

/-- A sequence of interrupts, handled in order. -/
def run (s : State) (tr : List Input) : State :=
  tr.foldl step s

/-- An idle transmit channel. -/
def TxChannel.idle : TxChannel := ⟨0, [], true, []⟩

/-- State after initialisation: both counters are 0 and the event buffer is
empty (`event_buff_init`); `en` is the initial value of the timer's
event-generation flag, which is set by generated code outside the source files. -/
def init (en : Bool) : State :=
  ⟨0, 0, en, [], [], TxChannel.idle, TxChannel.idle⟩

/-- States reachable from an initial state (both counters 0) by edge-handler
steps and by tick-handler steps taken only while timer events are enabled. -/
inductive Reachable : State → Prop where
  | start (s : State) (ht : s.timeout_counter = 0) (hs : s.snapping_counter = 0) :
      Reachable s
  | edge (s : State) (h : Reachable s) : Reachable (KY_038_OnInterrupt s)
  | tick (s : State) (h : Reachable s) (hen : s.TI1_EnEvent = true) :
      Reachable (TI1_OnInterrupt s)

/-- Specification of the orientation check: the events a pass appends, as a
function of the three readings.  Used to state `orientation_check_eq`. -/
def orientationEvent (x y z : Int) : List EVENT :=
  if 2000 ≤ |x| then [ORIENTATION_CHANG_TO_VER]
  else if 2000 ≤ |y| then [ORIENTATION_CHANG_TO_LAT]
  else if 2000 ≤ |z| then [ORIENTATION_CHANG_TO_HOR]
  else []

/-- Specification of the closing tick: the events it appends, as a function of
the value of `snapping_counter`.  Used to state `TI1_closing`. -/
def gesture (n : Nat) : List EVENT :=
  if n = 2 then [SINGLE_FINGER_SNAPPING]
  else if n = 4 then [DOUBLE_FINGER_SNAPPING]
  else []

/-- The window is open (timer events enabled) after every interrupt of the
trace: no tick of the trace is a closing tick and none is ignored. -/
def openThroughout (s : State) : List Input → Bool
  | [] => true
  | i :: tr => (step s i).TI1_EnEvent && openThroughout (step s i) tr

/-- Invariant of the snap state machine. -/
def Inv (s : State) : Prop :=
  (s.snapping_counter ≠ 0 → s.TI1_EnEvent = true) ∧
  (s.TI1_EnEvent = true → s.timeout_counter < TIMEOUT) ∧
  s.snapping_counter < 256

/-- Number of runs of the tick handler since `timeout_counter` was last reset by
an edge that took the `snapping_counter == 0` branch of `KY_038_OnInterrupt`,
counted along a trace that starts in `s` with `g` such runs so far. -/
def ticksSinceReset (s : State) (g : Nat) : List Input → Nat
  | [] => g
  | Input.edge :: tr =>
      ticksSinceReset (step s Input.edge) (if s.snapping_counter = 0 then 0 else g) tr
  | Input.tick :: tr =>
      ticksSinceReset (step s Input.tick) (if s.TI1_EnEvent then g + 1 else g) tr

/-! ## Control loop and serial handlers -/

theorem abs_eq (x : Int) : abs x = |x| := by
  unfold abs
  split
  · rw [abs_of_neg (by assumption)]
  · rw [abs_of_nonneg (by omega)]

theorem orientation_check_eq (x y z : Int) (s : State) :
    orientation_check x y z s =
      { s with event_buff := s.event_buff ++ orientationEvent x y z } := by
  simp only [orientation_check, orientationEvent, abs_eq, GRAVITY_THRESHOLD, VERTICAL,
    LATERAL, HORIZONTAL, event_buff_insert_event, ge_iff_le]
  by_cases hx : (2000 : Int) ≤ |x|
  · simp [hx]
  · by_cases hy : (2000 : Int) ≤ |y|
    · simp [hx, hy]
    · by_cases hz : (2000 : Int) ≤ |z|
      · simp [hx, hy, hz]
      · simp [hx, hy, hz]

/-- C3: one pass of the control loop inserts at most one orientation event,
appended to the event buffer: `ORIENTATION_CHANG_TO_VER` if `|x| ≥ 2000`,
otherwise `ORIENTATION_CHANG_TO_LAT` if `|y| ≥ 2000`, otherwise
`ORIENTATION_CHANG_TO_HOR` if `|z| ≥ 2000`, otherwise nothing.  The threshold is
inclusive: readings of 2000 and -2000 trigger, 1999 does not. -/
theorem C3_axis_priority_inclusive_threshold (x y z : Int) (s : State) :
    (orientation_check x y z s).event_buff =
        s.event_buff ++
          (if 2000 ≤ |x| then [ORIENTATION_CHANG_TO_VER]
           else if 2000 ≤ |y| then [ORIENTATION_CHANG_TO_LAT]
           else if 2000 ≤ |z| then [ORIENTATION_CHANG_TO_HOR]
           else [])
      ∧ (orientation_check x y z s).event_buff.length ≤ s.event_buff.length + 1
      ∧ (orientation_check 2000 y z s).event_buff
          = s.event_buff ++ [ORIENTATION_CHANG_TO_VER]
      ∧ (orientation_check (-2000) y z s).event_buff
          = s.event_buff ++ [ORIENTATION_CHANG_TO_VER]
      ∧ (orientation_check 1999 (-2000) z s).event_buff
          = s.event_buff ++ [ORIENTATION_CHANG_TO_LAT]
      ∧ (orientation_check 1999 (-1999) 2000 s).event_buff
          = s.event_buff ++ [ORIENTATION_CHANG_TO_HOR]
      ∧ (orientation_check 1999 (-1999) 1999 s).event_buff = s.event_buff := by
  refine ⟨?_, ?_, ?_, ?_, ?_, ?_, ?_⟩
  · rw [orientation_check_eq]; rfl
  · rw [orientation_check_eq]
    simp only [orientationEvent, List.length_append]
    split_ifs <;> simp
  all_goals
    rw [orientation_check_eq]
    simp [orientationEvent, abs_of_nonneg, abs_of_neg]

theorem dispatch_cons (s : State) (e : EVENT) (rest : List EVENT)
    (h : s.event_buff = e :: rest) :
    dispatch s = { s with event_buff := rest, handled := s.handled ++ [e] } := by
  simp [dispatch, event_buff_is_empty, event_buff_consume_event, event_handler, h]

theorem dispatch_nil (s : State) (h : s.event_buff = []) : dispatch s = s := by
  simp [dispatch, event_buff_is_empty, h]

/-- C7: the dispatch step that ends every pass of the control loop runs on the
state left by the orientation check.  If the event buffer then holds
`e :: rest`, exactly the oldest event `e` is removed and `event_handler` is
invoked exactly once, with `e`; if it is empty, `event_handler` is not invoked
and nothing changes.  An orientation event inserted into an empty buffer is
dispatched in the same pass. -/
theorem C7_dispatch_step (r : Int × Int × Int) (s : State) :
    main_loop_body r s = dispatch (orientation_check r.1 r.2.1 r.2.2 s)
      ∧ (∀ (u : State) (e : EVENT) (rest : List EVENT), u.event_buff = e :: rest →
          (dispatch u).event_buff = rest ∧ (dispatch u).handled = u.handled ++ [e])
      ∧ (∀ u : State, u.event_buff = [] → dispatch u = u)
      ∧ (s.event_buff = [] →
          (main_loop_body r s).event_buff = [] ∧
          (main_loop_body r s).handled
            = s.handled ++ (orientation_check r.1 r.2.1 r.2.2 s).event_buff) := by
  refine ⟨rfl, ?_, dispatch_nil, ?_⟩
  · intro u e rest h
    rw [dispatch_cons u e rest h]
    exact ⟨rfl, rfl⟩
  · intro h
    unfold main_loop_body
    rw [orientation_check_eq]
    simp only [orientationEvent, h, List.nil_append]
    split_ifs
    · rw [dispatch_cons _ ORIENTATION_CHANG_TO_VER [] rfl]; exact ⟨rfl, rfl⟩
    · rw [dispatch_cons _ ORIENTATION_CHANG_TO_LAT [] rfl]; exact ⟨rfl, rfl⟩
    · rw [dispatch_cons _ ORIENTATION_CHANG_TO_HOR [] rfl]; exact ⟨rfl, rfl⟩
    · rw [dispatch_nil _ rfl]; simp

/-- Witness for C7: a pass with X = 2500 on an empty buffer and a pass on a
buffer that already holds two events. -/
theorem C7_dispatch_step_witness :
    (main_loop_body (2500, 0, 0) (init false)).event_buff = []
      ∧ (main_loop_body (2500, 0, 0) (init false)).handled = [ORIENTATION_CHANG_TO_VER]
      ∧ (dispatch { init false with
            event_buff := [SINGLE_FINGER_SNAPPING, NEW_MESSAGE_FROM_BROKER] }).event_buff
          = [NEW_MESSAGE_FROM_BROKER] := by
  have h := C7_dispatch_step (2500, 0, 0) (init false)
  refine ⟨(h.2.2.2 rfl).1, ?_, ?_⟩
  · rw [(h.2.2.2 rfl).2]; decide
  · exact (h.2.1 _ SINGLE_FINGER_SNAPPING [NEW_MESSAGE_FROM_BROKER] rfl).1

/-- C8: `UART0_OnRxChar` appends exactly one `NEW_MESSAGE_FROM_TERMINAL` when
`UART0_HasACompleteMessage()` is true and nothing otherwise; `UART2_OnRxChar`
does the same with `NEW_MESSAGE_FROM_BROKER`.  The event buffer after either
handler is a function of the buffer before and of the completeness flag alone,
so it does not depend on the transmit channels; the transmit handlers and the
error handlers leave the event buffer as it is. -/
theorem C8_receive_handlers (console_write : TxChannel → Nat → TxChannel)
    (lastChar : Nat) (complete : Bool) (s : State) :
    (UART0_OnRxChar console_write lastChar complete s).event_buff
        = s.event_buff ++ (if complete then [NEW_MESSAGE_FROM_TERMINAL] else [])
      ∧ (UART2_OnRxChar complete s).event_buff
        = s.event_buff ++ (if complete then [NEW_MESSAGE_FROM_BROKER] else [])
      ∧ (∀ t : State, t.event_buff = s.event_buff →
          (UART0_OnRxChar console_write lastChar complete t).event_buff
            = (UART0_OnRxChar console_write lastChar complete s).event_buff
          ∧ (UART2_OnRxChar complete t).event_buff = (UART2_OnRxChar complete s).event_buff)
      ∧ (UART0_OnTxChar s).event_buff = s.event_buff
      ∧ (UART2_OnTxChar s).event_buff = s.event_buff
      ∧ (UART0_OnError s).event_buff = s.event_buff
      ∧ (UART2_OnError s).event_buff = s.event_buff := by
  have h0 : ∀ u : State, (UART0_OnRxChar console_write lastChar complete u).event_buff
      = u.event_buff ++ (if complete then [NEW_MESSAGE_FROM_TERMINAL] else []) := by
    intro u
    cases complete <;> simp [UART0_OnRxChar, event_buff_insert_event]
  have h2 : ∀ u : State, (UART2_OnRxChar complete u).event_buff
      = u.event_buff ++ (if complete then [NEW_MESSAGE_FROM_BROKER] else []) := by
    intro u
    cases complete <;> simp [UART2_OnRxChar, event_buff_insert_event]
  refine ⟨h0 s, h2 s, ?_, rfl, rfl, rfl, rfl⟩
  intro t ht
  rw [h0 t, h0 s, h2 t, h2 s, ht]
  exact ⟨rfl, rfl⟩

/-- Witness for C8: a terminal message completes while the console channel is in
the middle of a transmission. -/
theorem C8_receive_handlers_witness :
    (UART0_OnRxChar (fun c _ => c) 13 true
        { init false with console := ⟨3, [104, 105, 0], false, [104]⟩ }).event_buff
      = (UART0_OnRxChar (fun c _ => c) 13 true (init false)).event_buff := by
  exact ((C8_receive_handlers (fun c _ => c) 13 true (init false)).2.2.1
    { init false with console := ⟨3, [104, 105, 0], false, [104]⟩ } rfl).1

/-- C2: two consecutive passes with X = 2500 (Y and Z below the threshold),
started on an empty buffer.  The second pass inserts `ORIENTATION_CHANG_TO_VER`
again, so `event_handler` sees the event twice; over the readings
2500, 2500, 500, 2500 the event reaches the handler three times. -/
theorem C2_orientation_event_on_every_pass :
    (orientation_check 2500 0 0 (init false)).event_buff = [ORIENTATION_CHANG_TO_VER]
      ∧ (orientation_check 2500 0 0 (main_loop_body (2500, 0, 0) (init false))).event_buff
          = (main_loop_body (2500, 0, 0) (init false)).event_buff
              ++ [ORIENTATION_CHANG_TO_VER]
      ∧ (main_loop [(2500, 0, 0), (2500, 0, 0)] (init false)).handled
          = [ORIENTATION_CHANG_TO_VER, ORIENTATION_CHANG_TO_VER]
      ∧ (main_loop [(2500, 0, 0), (2500, 0, 0), (500, 0, 0), (2500, 0, 0)]
            (init false)).handled
          = [ORIENTATION_CHANG_TO_VER, ORIENTATION_CHANG_TO_VER,
             ORIENTATION_CHANG_TO_VER] := by
  refine ⟨by decide, by decide, by decide, by decide⟩

/-! ## Snap state machine -/

theorem KY_038_event_buff (s : State) :
    (KY_038_OnInterrupt s).event_buff = s.event_buff := by
  unfold KY_038_OnInterrupt TI1_EnableEvent
  split <;> rfl

theorem KY_038_snapping_counter (s : State) :
    (KY_038_OnInterrupt s).snapping_counter = (s.snapping_counter + 1) % 256 := by
  unfold KY_038_OnInterrupt TI1_EnableEvent
  split <;> rfl

theorem KY_038_first (s : State) (h : s.snapping_counter = 0) :
    KY_038_OnInterrupt s
      = { s with timeout_counter := 0, TI1_EnEvent := true, snapping_counter := 1 } := by
  simp [KY_038_OnInterrupt, TI1_EnableEvent, h]

theorem KY_038_later (s : State) (h : s.snapping_counter ≠ 0) :
    KY_038_OnInterrupt s
      = { s with snapping_counter := (s.snapping_counter + 1) % 256 } := by
  simp [KY_038_OnInterrupt, h]

theorem TI1_closing (s : State) (h : (s.timeout_counter + 1) % 256 = TIMEOUT) :
    TI1_OnInterrupt s
      = { s with timeout_counter := TIMEOUT, snapping_counter := 0, TI1_EnEvent := false,
                 event_buff := s.event_buff ++ gesture s.snapping_counter } := by
  unfold TI1_OnInterrupt
  simp only [h, if_true, gesture, TI1_DisableEvent, event_buff_insert_event]
  by_cases h2 : s.snapping_counter = 2
  · simp [h2]
  · by_cases h4 : s.snapping_counter = 4
    · simp [h4]
    · simp [h2, h4]

theorem TI1_not_closing (s : State) (h : (s.timeout_counter + 1) % 256 ≠ TIMEOUT) :
    TI1_OnInterrupt s = { s with timeout_counter := (s.timeout_counter + 1) % 256 } := by
  unfold TI1_OnInterrupt
  simp [h]

theorem gesture_length (n : Nat) : (gesture n).length ≤ 1 := by
  unfold gesture
  split_ifs <;> simp

theorem Inv_KY_038 (s : State) (h : Inv s) : Inv (KY_038_OnInterrupt s) := by
  obtain ⟨h1, h2, h3⟩ := h
  by_cases h0 : s.snapping_counter = 0
  · rw [KY_038_first s h0]
    refine ⟨fun _ => rfl, fun _ => by simp [TIMEOUT], by simp⟩
  · rw [KY_038_later s h0]
    refine ⟨fun _ => h1 h0, h2, Nat.mod_lt _ (by norm_num)⟩

theorem Inv_TI1 (s : State) (h : Inv s) (hen : s.TI1_EnEvent = true) :
    Inv (TI1_OnInterrupt s) := by
  obtain ⟨h1, h2, h3⟩ := h
  have ht := h2 hen
  unfold TIMEOUT at ht
  by_cases hc : (s.timeout_counter + 1) % 256 = TIMEOUT
  · rw [TI1_closing s hc]
    exact ⟨fun h => absurd rfl h, fun h => by simp at h, by simp⟩
  · rw [TI1_not_closing s hc]
    refine ⟨h1, fun _ => ?_, h3⟩
    unfold TIMEOUT at hc ⊢
    show (s.timeout_counter + 1) % 256 < 10
    omega

theorem Inv_step (s : State) (i : Input) (h : Inv s) : Inv (step s i) := by
  cases i with
  | edge => exact Inv_KY_038 s h
  | tick =>
    show Inv (if s.TI1_EnEvent then TI1_OnInterrupt s else s)
    split
    · exact Inv_TI1 s h (by assumption)
    · exact h

theorem Inv_run (tr : List Input) (s : State) (h : Inv s) : Inv (run s tr) := by
  induction tr generalizing s with
  | nil => exact h
  | cons i tr ih => exact ih (step s i) (Inv_step s i h)

theorem Reachable.inv {s : State} (h : Reachable s) : Inv s := by
  induction h with
  | start s ht hs => exact ⟨fun h => absurd hs h, fun _ => by simp [ht, TIMEOUT], by simp [hs]⟩
  | edge s _ ih => exact Inv_KY_038 s ih
  | tick s _ hen ih => exact Inv_TI1 s ih hen

theorem Reachable.run {s : State} (h : Reachable s) (tr : List Input) :
    Reachable (run s tr) := by
  induction tr generalizing s with
  | nil => exact h
  | cons i tr ih =>
    apply ih
    cases i with
    | edge => exact Reachable.edge s h
    | tick =>
      show Reachable (if s.TI1_EnEvent then TI1_OnInterrupt s else s)
      split
      · exact Reachable.tick s h (by assumption)
      · exact h

theorem run_append (s : State) (tr tr2 : List Input) :
    run s (tr ++ tr2) = run (run s tr) tr2 := by
  simp [run, List.foldl_append]

theorem run_ticks_closed (k : Nat) (s : State) (h : s.TI1_EnEvent = false) :
    run s (List.replicate k Input.tick) = s := by
  induction k with
  | zero => rfl
  | succ k ih =>
    rw [List.replicate_succ]
    show run (step s Input.tick) _ = s
    have : step s Input.tick = s := by simp [step, h]
    rw [this, ih]

/-- A step that leaves the window open inserts nothing and counts one edge at
most. -/
theorem step_open (s : State) (i : Input) (h : (step s i).TI1_EnEvent = true) :
    (step s i).event_buff = s.event_buff ∧
    (step s i).snapping_counter
      = if i = Input.edge then (s.snapping_counter + 1) % 256 else s.snapping_counter := by
  cases i with
  | edge => exact ⟨KY_038_event_buff s, by simp [step, KY_038_snapping_counter]⟩
  | tick =>
    by_cases hen : s.TI1_EnEvent = true
    · have hs : step s Input.tick = TI1_OnInterrupt s := by simp [step, hen]
      rw [hs] at h ⊢
      by_cases hc : (s.timeout_counter + 1) % 256 = TIMEOUT
      · rw [TI1_closing s hc] at h
        simp at h
      · rw [TI1_not_closing s hc]
        simp
    · have hs : step s Input.tick = s := by simp [step, hen]
      rw [hs] at h
      exact absurd h hen

/-- While the window stays open the event buffer is untouched and
`snapping_counter` is the number of edges modulo 256. -/
theorem run_open (tr : List Input) (s : State) (hlt : s.snapping_counter < 256)
    (h : openThroughout s tr = true) :
    (run s tr).event_buff = s.event_buff ∧
    (run s tr).snapping_counter = (s.snapping_counter + tr.count Input.edge) % 256 ∧
    (tr ≠ [] → (run s tr).TI1_EnEvent = true) := by
  induction tr generalizing s with
  | nil => exact ⟨rfl, by simp [run, Nat.mod_eq_of_lt hlt], fun h => absurd rfl h⟩
  | cons i tr ih =>
    simp only [openThroughout, Bool.and_eq_true] at h
    obtain ⟨hen, hrest⟩ := h
    obtain ⟨hq, hsc⟩ := step_open s i hen
    have hlt2 : (step s i).snapping_counter < 256 := by
      rw [hsc]; split
      · exact Nat.mod_lt _ (by norm_num)
      · exact hlt
    obtain ⟨ih1, ih2, ih3⟩ := ih (step s i) hlt2 hrest
    show (run (step s i) tr).event_buff = s.event_buff ∧
      (run (step s i) tr).snapping_counter = _ ∧ (_ → (run (step s i) tr).TI1_EnEvent = true)
    refine ⟨ih1.trans hq, ?_, fun _ => ?_⟩
    · rw [ih2, hsc]
      cases i with
      | edge => simp [List.count_cons]; omega
      | tick => simp [List.count_cons]
    · by_cases hnil : tr = []
      · subst hnil; exact hen
      · exact ih3 hnil

/-- From an open window with `timeout_counter < TIMEOUT`, ticks alone close the
window at the tick that brings `timeout_counter` to `TIMEOUT`; that tick
appends the classification of `snapping_counter`, and later ticks are ignored. -/
theorem run_ticks_close (n : Nat) (s : State) (hen : s.TI1_EnEvent = true)
    (hn : s.timeout_counter + n + 1 = TIMEOUT) (k : Nat) (hk : n + 1 ≤ k) :
    run s (List.replicate k Input.tick)
      = { s with timeout_counter := TIMEOUT, snapping_counter := 0, TI1_EnEvent := false,
                 event_buff := s.event_buff ++ gesture s.snapping_counter } := by
  induction n generalizing s k with
  | zero =>
    obtain ⟨k, rfl⟩ : ∃ j, k = j + 1 := ⟨k - 1, by omega⟩
    rw [List.replicate_succ]
    show run (step s Input.tick) _ = _
    have hc : (s.timeout_counter + 1) % 256 = TIMEOUT := by
      unfold TIMEOUT at hn ⊢; omega
    have hs : step s Input.tick = TI1_OnInterrupt s := by simp [step, hen]
    rw [hs, TI1_closing s hc, run_ticks_closed k _ rfl]
  | succ n ih =>
    obtain ⟨k, rfl⟩ : ∃ j, k = j + 1 := ⟨k - 1, by omega⟩
    rw [List.replicate_succ]
    show run (step s Input.tick) _ = _
    have hc : (s.timeout_counter + 1) % 256 ≠ TIMEOUT := by
      unfold TIMEOUT at hn ⊢; omega
    have hm : (s.timeout_counter + 1) % 256 = s.timeout_counter + 1 := by
      unfold TIMEOUT at hn; omega
    have hs : step s Input.tick = TI1_OnInterrupt s := by simp [step, hen]
    rw [hs, TI1_not_closing s hc, hm]
    exact ih { s with timeout_counter := s.timeout_counter + 1 } hen
      (show s.timeout_counter + 1 + n + 1 = TIMEOUT by omega) k (by omega)

/-- A window that has stayed open over a non-empty trace from a state satisfying
the invariant closes within the next `TIMEOUT` ticks and the closing tick appends
the classification of the number of edges modulo 256. -/
theorem run_open_then_ticks (tr : List Input) (s : State) (hinv : Inv s)
    (h0 : s.snapping_counter = 0) (hne : tr ≠ []) (h : openThroughout s tr = true) :
    (run s (tr ++ List.replicate TIMEOUT Input.tick)).event_buff
      = s.event_buff ++ gesture (tr.count Input.edge % 256) := by
  obtain ⟨hq, hsc, hen⟩ := run_open tr s (by omega) h
  have hen := hen hne
  have hlt := (Inv_run tr s hinv).2.1 hen
  rw [run_append]
  obtain ⟨n, hn⟩ : ∃ n, (run s tr).timeout_counter + n + 1 = TIMEOUT :=
    ⟨TIMEOUT - (run s tr).timeout_counter - 1, by omega⟩
  rw [run_ticks_close n _ hen hn TIMEOUT (by omega)]
  simp [hq, hsc, h0]

theorem run_open_event_buff (tr : List Input) (s : State)
    (h : openThroughout s tr = true) : (run s tr).event_buff = s.event_buff := by
  induction tr generalizing s with
  | nil => rfl
  | cons i tr ih =>
    simp only [openThroughout, Bool.and_eq_true] at h
    exact (ih (step s i) h.2).trans (step_open s i h.1).1

theorem openThroughout_take (tr : List Input) (s : State) (k : Nat)
    (h : openThroughout s tr = true) : openThroughout s (tr.take k) = true := by
  induction tr generalizing s k with
  | nil => simp [openThroughout]
  | cons i tr ih =>
    cases k with
    | zero => simp [openThroughout]
    | succ k =>
      simp only [openThroughout, Bool.and_eq_true, List.take_succ_cons] at h ⊢
      exact ⟨h.1, ih (step s i) k h.2⟩

theorem TI1_never_enables (u : State) (h : (TI1_OnInterrupt u).TI1_EnEvent = true) :
    u.TI1_EnEvent = true := by
  by_cases hc : (u.timeout_counter + 1) % 256 = TIMEOUT
  · rw [TI1_closing u hc] at h
    simp at h
  · rw [TI1_not_closing u hc] at h
    exact h

theorem step_tick_inserts (u : State) :
    ∃ es : List EVENT, es.length ≤ 1 ∧
      (step u Input.tick).event_buff = u.event_buff ++ es := by
  by_cases hen : u.TI1_EnEvent = true
  · have hs : step u Input.tick = TI1_OnInterrupt u := by simp [step, hen]
    rw [hs]
    by_cases hc : (u.timeout_counter + 1) % 256 = TIMEOUT
    · exact ⟨gesture u.snapping_counter, gesture_length _, by rw [TI1_closing u hc]⟩
    · exact ⟨[], by simp, by rw [TI1_not_closing u hc]; simp⟩
  · have hs : step u Input.tick = u := by simp [step, hen]
    exact ⟨[], by simp, by rw [hs]; simp⟩

/-- C4: in every reachable state in which the window is closed (timer events
disabled), timer ticks change nothing, so the window stays closed; the next edge
interrupt re-enables timer events and it is the only step that does (the tick
handler never enables them); and no step taken from the closed state inserts an
event. -/
theorem C4_closed_window (s : State) (hr : Reachable s) (hclosed : s.TI1_EnEvent = false) :
    (∀ k : Nat, run s (List.replicate k Input.tick) = s)
      ∧ (step s Input.edge).TI1_EnEvent = true
      ∧ (∀ i : Input, (step s i).TI1_EnEvent = true → i = Input.edge)
      ∧ (∀ u : State, (TI1_OnInterrupt u).TI1_EnEvent = true → u.TI1_EnEvent = true)
      ∧ (∀ i : Input, (step s i).event_buff = s.event_buff) := by
  have h0 : s.snapping_counter = 0 := by
    by_contra h
    have := hr.inv.1 h
    rw [hclosed] at this
    exact absurd this (by simp)
  have htick : step s Input.tick = s := by simp [step, hclosed]
  refine ⟨fun k => run_ticks_closed k s hclosed, ?_, ?_, TI1_never_enables, ?_⟩
  · show (KY_038_OnInterrupt s).TI1_EnEvent = true
    rw [KY_038_first s h0]
  · intro i hi
    cases i with
    | edge => rfl
    | tick => rw [htick, hclosed] at hi; exact absurd hi (by simp)
  · intro i
    cases i with
    | edge => exact KY_038_event_buff s
    | tick => rw [htick]

/-- Witness for C4: the state left by a window with two edges and its ten ticks. -/
theorem C4_closed_window_witness :
    (run (init false)
        ([Input.edge, Input.edge] ++ List.replicate 10 Input.tick)).TI1_EnEvent = false
      ∧ (step (run (init false) ([Input.edge, Input.edge] ++ List.replicate 10 Input.tick))
          Input.edge).TI1_EnEvent = true := by
  have hc : (run (init false)
      ([Input.edge, Input.edge] ++ List.replicate 10 Input.tick)).TI1_EnEvent = false := by
    decide
  exact ⟨hc, (C4_closed_window _ ((Reachable.start (init false) rfl rfl).run _) hc).2.1⟩

/-- C5: the edge handler never inserts an event; a tick that does not bring
`timeout_counter` to `TIMEOUT` inserts nothing and leaves `snapping_counter` and
the timer-enable flag as they are; hence over any interleaving of edges and
ticks during which the window stays open the event buffer is the same after
every prefix, and the tick that follows (the closing tick) appends at most one
event. -/
theorem C5_one_event_per_window (s : State) (tr : List Input)
    (hopen : openThroughout s tr = true) :
    (∀ u : State, (KY_038_OnInterrupt u).event_buff = u.event_buff)
      ∧ (∀ u : State, (u.timeout_counter + 1) % 256 ≠ TIMEOUT →
          (TI1_OnInterrupt u).event_buff = u.event_buff ∧
          (TI1_OnInterrupt u).snapping_counter = u.snapping_counter ∧
          (TI1_OnInterrupt u).TI1_EnEvent = u.TI1_EnEvent)
      ∧ (∀ k : Nat, (run s (tr.take k)).event_buff = s.event_buff)
      ∧ (∃ es : List EVENT, es.length ≤ 1 ∧
          (run s (tr ++ [Input.tick])).event_buff = s.event_buff ++ es) := by
  refine ⟨KY_038_event_buff, ?_, ?_, ?_⟩
  · intro u hu
    rw [TI1_not_closing u hu]
    exact ⟨rfl, rfl, rfl⟩
  · intro k
    exact run_open_event_buff _ s (openThroughout_take tr s k hopen)
  · obtain ⟨es, hlen, hes⟩ := step_tick_inserts (run s tr)
    refine ⟨es, hlen, ?_⟩
    rw [run_append]
    show (step (run s tr) Input.tick).event_buff = _
    rw [hes, run_open_event_buff tr s hopen]

/-- Witness for C5: a window with edges before the first and the third tick,
followed by seven more ticks; the tenth tick closes it. -/
theorem C5_one_event_per_window_witness :
    openThroughout (init false)
        ([Input.edge, Input.tick, Input.tick, Input.edge] ++ List.replicate 7 Input.tick)
        = true
      ∧ ∃ es : List EVENT, es.length ≤ 1 ∧
          (run (init false)
            (([Input.edge, Input.tick, Input.tick, Input.edge]
                ++ List.replicate 7 Input.tick) ++ [Input.tick])).event_buff
            = (init false).event_buff ++ es :=
  ⟨by decide, (C5_one_event_per_window (init false) _ (by decide)).2.2.2⟩

/-- C10: the edge handler run with `snapping_counter = 255` in a reachable state
leaves `snapping_counter = 0` with the window still open, and the edge after it
is handled as a first edge: it resets `timeout_counter` to 0.  Hence, from a
reachable state with `snapping_counter = 0`, any trace with exactly 258 edges
during which the window stays open (no closing tick in between), followed by
`TIMEOUT` ticks, appends exactly `SINGLE_FINGER_SNAPPING`; with 260 edges it
appends exactly `DOUBLE_FINGER_SNAPPING`. -/
theorem C10_snapping_counter_wraps (s : State) (tr : List Input) (hr : Reachable s)
    (h0 : s.snapping_counter = 0) (hopen : openThroughout s tr = true) :
    (∀ u : State, Reachable u → u.snapping_counter = 255 →
        (KY_038_OnInterrupt u).snapping_counter = 0 ∧
        (KY_038_OnInterrupt u).TI1_EnEvent = true ∧
        (KY_038_OnInterrupt (KY_038_OnInterrupt u)).timeout_counter = 0 ∧
        (KY_038_OnInterrupt (KY_038_OnInterrupt u)).snapping_counter = 1)
      ∧ (tr.count Input.edge = 258 →
          (run s (tr ++ List.replicate TIMEOUT Input.tick)).event_buff
            = s.event_buff ++ [SINGLE_FINGER_SNAPPING])
      ∧ (tr.count Input.edge = 260 →
          (run s (tr ++ List.replicate TIMEOUT Input.tick)).event_buff
            = s.event_buff ++ [DOUBLE_FINGER_SNAPPING]) := by
  refine ⟨?_, ?_, ?_⟩
  · intro u hu h255
    have hne : u.snapping_counter ≠ 0 := by omega
    have hen := hu.inv.1 hne
    have h1 : (KY_038_OnInterrupt u).snapping_counter = 0 := by
      rw [KY_038_snapping_counter, h255]
    refine ⟨h1, ?_, ?_, ?_⟩
    · rw [KY_038_later u hne]; exact hen
    · rw [KY_038_first _ h1]
    · rw [KY_038_first _ h1]
  · intro hc
    have hne : tr ≠ [] := by
      rintro rfl
      simp at hc
    rw [run_open_then_ticks tr s hr.inv h0 hne hopen, hc]
    rfl
  · intro hc
    have hne : tr ≠ [] := by
      rintro rfl
      simp at hc
    rw [run_open_then_ticks tr s hr.inv h0 hne hopen, hc]
    rfl

set_option maxRecDepth 100000 in
/-- Witness for C10: 260 edges, the first followed by two ticks, then `TIMEOUT`
ticks. -/
theorem C10_snapping_counter_wraps_witness :
    (init false).snapping_counter = 0
      ∧ openThroughout (init false)
          ([Input.edge, Input.tick, Input.tick] ++ List.replicate 259 Input.edge) = true
      ∧ (run (init false)
          (([Input.edge, Input.tick, Input.tick] ++ List.replicate 259 Input.edge)
            ++ List.replicate TIMEOUT Input.tick)).event_buff
          = (init false).event_buff ++ [DOUBLE_FINGER_SNAPPING] := by
  have ho : openThroughout (init false)
      ([Input.edge, Input.tick, Input.tick] ++ List.replicate 259 Input.edge) = true := by
    decide
  exact ⟨rfl, ho,
    (C10_snapping_counter_wraps (init false) _ (Reachable.start (init false) rfl rfl) rfl
      ho).2.2 (by decide)⟩

/-- Along any trace `timeout_counter` is the number of tick-handler runs since it
was last reset by an edge handled with `snapping_counter = 0`. -/
theorem run_timeout_counter (tr : List Input) (s : State) (g : Nat) (hinv : Inv s)
    (hg : s.timeout_counter = g) :
    (run s tr).timeout_counter = ticksSinceReset s g tr := by
  induction tr generalizing s g with
  | nil => exact hg
  | cons i tr ih =>
    cases i with
    | edge =>
      show (run (step s Input.edge) tr).timeout_counter
        = ticksSinceReset (step s Input.edge) (if s.snapping_counter = 0 then 0 else g) tr
      apply ih _ _ (Inv_step s _ hinv)
      show (KY_038_OnInterrupt s).timeout_counter = _
      by_cases h0 : s.snapping_counter = 0
      · rw [KY_038_first s h0]; simp [h0]
      · rw [KY_038_later s h0]; simp [h0, hg]
    | tick =>
      show (run (step s Input.tick) tr).timeout_counter
        = ticksSinceReset (step s Input.tick) (if s.TI1_EnEvent then g + 1 else g) tr
      apply ih _ _ (Inv_step s _ hinv)
      by_cases hen : s.TI1_EnEvent = true
      · have hs : step s Input.tick = TI1_OnInterrupt s := by simp [step, hen]
        have hlt := hinv.2.1 hen
        rw [hs]
        by_cases hc : (s.timeout_counter + 1) % 256 = TIMEOUT
        · rw [TI1_closing s hc]
          simp only [hen, if_true]
          unfold TIMEOUT at hc hlt ⊢
          omega
        · rw [TI1_not_closing s hc]
          simp only [hen, if_true]
          unfold TIMEOUT at hlt
          omega
      · have hs : step s Input.tick = s := by simp [step, hen]
        rw [hs]
        simp [hen, hg]

/-- Ticks that do not reach `TIMEOUT` only advance `timeout_counter`. -/
theorem run_ticks_open (k : Nat) (s : State) (hen : s.TI1_EnEvent = true)
    (hk : s.timeout_counter + k < TIMEOUT) :
    run s (List.replicate k Input.tick)
      = { s with timeout_counter := s.timeout_counter + k } := by
  induction k generalizing s with
  | zero => rfl
  | succ k ih =>
    rw [List.replicate_succ]
    show run (step s Input.tick) _ = _
    have hc : (s.timeout_counter + 1) % 256 ≠ TIMEOUT := by
      unfold TIMEOUT at hk ⊢; omega
    have hm : (s.timeout_counter + 1) % 256 = s.timeout_counter + 1 := by
      unfold TIMEOUT at hk; omega
    have hs : step s Input.tick = TI1_OnInterrupt s := by simp [step, hen]
    rw [hs, TI1_not_closing s hc, hm]
    rw [ih { s with timeout_counter := s.timeout_counter + 1 } hen
      (show s.timeout_counter + 1 + k < TIMEOUT by omega)]
    show ({ s with timeout_counter := s.timeout_counter + 1 + k } : State) = _
    rw [Nat.add_assoc, Nat.add_comm 1 k]

/-- C9: in every state reachable from an initial state (both counters 0) by
edge-handler steps and by tick-handler steps taken while timer events are
enabled, (1) `snapping_counter ≠ 0` implies timer events are enabled and
(2) timer events enabled implies `timeout_counter < TIMEOUT`.  Hence, while
timer events are enabled, the increment of `timeout_counter` does not wrap and
cannot pass `TIMEOUT`, the tick handler closes the window exactly when it brings
the counter to `TIMEOUT`, and ticks alone leave the window open for fewer than
`TIMEOUT - timeout_counter` ticks and closed from then on.  Along every trace
from an initial state `timeout_counter` is the number of ticks handled since the
edge that last armed the count (an edge handled with `snapping_counter = 0`), so
every window closes at exactly the `TIMEOUT`-th tick after that edge. -/
theorem C9_snap_invariant (s : State) (hr : Reachable s) :
    (s.snapping_counter ≠ 0 → s.TI1_EnEvent = true)
      ∧ (s.TI1_EnEvent = true → s.timeout_counter < TIMEOUT)
      ∧ (s.TI1_EnEvent = true →
          (s.timeout_counter + 1) % 256 = s.timeout_counter + 1
          ∧ ((TI1_OnInterrupt s).TI1_EnEvent = false ↔ s.timeout_counter + 1 = TIMEOUT)
          ∧ (∀ k : Nat, (run s (List.replicate k Input.tick)).TI1_EnEvent = true ↔
              s.timeout_counter + k < TIMEOUT))
      ∧ (∀ (s0 : State) (tr : List Input), s0.timeout_counter = 0 →
          s0.snapping_counter = 0 →
          Reachable (run s0 tr)
          ∧ (run s0 tr).timeout_counter = ticksSinceReset s0 0 tr
          ∧ ((run s0 tr).TI1_EnEvent = true →
              ((step (run s0 tr) Input.tick).TI1_EnEvent = false ↔
                ticksSinceReset s0 0 tr + 1 = TIMEOUT))) := by
  have hclose : ∀ u : State, Inv u → u.TI1_EnEvent = true →
      ((TI1_OnInterrupt u).TI1_EnEvent = false ↔ u.timeout_counter + 1 = TIMEOUT) := by
    intro u hu hen
    have hlt := hu.2.1 hen
    by_cases hc : (u.timeout_counter + 1) % 256 = TIMEOUT
    · rw [TI1_closing u hc]
      unfold TIMEOUT at hc hlt ⊢
      simp only [true_iff]; omega
    · rw [TI1_not_closing u hc]
      unfold TIMEOUT at hc hlt ⊢
      simp only [hen]
      constructor
      · intro hf; exact absurd hf (by simp)
      · intro hf; omega
  refine ⟨hr.inv.1, hr.inv.2.1, ?_, ?_⟩
  · intro hen
    have hlt := hr.inv.2.1 hen
    refine ⟨?_, hclose s hr.inv hen, ?_⟩
    · unfold TIMEOUT at hlt; omega
    · intro k
      by_cases hk : s.timeout_counter + k < TIMEOUT
      · rw [run_ticks_open k s hen hk]
        simp [hen, hk]
      · obtain ⟨n, hn⟩ : ∃ n, s.timeout_counter + n + 1 = TIMEOUT :=
          ⟨TIMEOUT - s.timeout_counter - 1, by omega⟩
        rw [run_ticks_close n s hen hn k (by omega)]
        simp [hk]
  · intro s0 tr ht hs
    have hr0 : Reachable s0 := Reachable.start s0 ht hs
    have htc := run_timeout_counter tr s0 0 hr0.inv ht
    refine ⟨hr0.run tr, htc, ?_⟩
    intro hen
    have hst : step (run s0 tr) Input.tick = TI1_OnInterrupt (run s0 tr) := by
      simp [step, hen]
    rw [hst, ← htc]
    exact hclose _ (hr0.run tr).inv hen

/-- Witness for C9: the state after an edge and two ticks is reachable, its window
is open and it closes after exactly eight more ticks. -/
theorem C9_snap_invariant_witness :
    Reachable (run (init false) [Input.edge, Input.tick, Input.tick])
      ∧ (run (init false) [Input.edge, Input.tick, Input.tick]).TI1_EnEvent = true
      ∧ (run (init false) [Input.edge, Input.tick, Input.tick]).timeout_counter < TIMEOUT
      ∧ ((run (run (init false) [Input.edge, Input.tick, Input.tick])
            (List.replicate 8 Input.tick)).TI1_EnEvent = true ↔
          (run (init false) [Input.edge, Input.tick, Input.tick]).timeout_counter + 8
            < TIMEOUT) :=
  have hr : Reachable (run (init false) [Input.edge, Input.tick, Input.tick]) :=
    (Reachable.start (init false) rfl rfl).run _
  ⟨hr, by decide, (C9_snap_invariant _ hr).2.1 (by decide),
    ((C9_snap_invariant _ hr).2.2.1 (by decide)).2.2 8⟩

end LeapMotion
